import Mathlib

/-!
Verification development for the news-scraping pipeline.

The definitions below are a shallow embedding of the program's core:
the date age filter (app/utils/date_utils.py and the link filter in
app/scrapers/mihan_blockchain.py), the retrying submission client
(app/services/api_client.py), the per-run dedup loop and image-upload
block (app/scrapers/base_scraper.py), the controller send loop
(app/controllers/scraper_controller.py), and the HTML normalization,
image-placeholder and segmentation algorithm
(app/scrapers/mihan_blockchain.py).  HTML is embedded as a token
stream (the unit the regex passes of the source operate on) together
with a lenient stack parser and serializer mirroring the behaviour of
the html.parser tree builder used by the source (literal nesting, no
implied end tags, unmatched end tags dropped, unclosed elements closed
at serialization).  Python string helpers are re-implemented on
character lists so that every definition evaluates inside the kernel.
-/

namespace NewsScraping

/-! ### Character and string helpers (Python str semantics) -/

/-- Whitespace test matching the characters Python's str.strip and the
regex class under re.sub treat as whitespace (ASCII subset). -/
def isWsChar (c : Char) : Bool :=
  c = ' ' ∨ c = '\t' ∨ c = '\n' ∨ c = '\r' ∨ c = '\x0b' ∨ c = '\x0c'

/-- Python str.strip on a character list: drop whitespace at both ends. -/
def stripChars (l : List Char) : List Char :=
  (((l.dropWhile isWsChar).reverse).dropWhile isWsChar).reverse

/-- Python str.strip. -/
def pyStrip (s : String) : String :=
  ⟨stripChars s.data⟩

/-- Collapse every run of whitespace to a single space, as
re.sub of one-or-more whitespace with a single space does; the flag
records whether the previous character was part of a whitespace run. -/
def collapseWsChars (prevWs : Bool) : List Char → List Char
  | [] => []
  | c :: cs =>
    if isWsChar c then
      (if prevWs then [] else [' ']) ++ collapseWsChars true cs
    else
      c :: collapseWsChars false cs

/-- Collapse whitespace runs in a string. -/
def collapseWs (s : String) : String :=
  ⟨collapseWsChars false s.data⟩

/-- Test whether the second list starts with the first. -/
def leadsWith : List Char → List Char → Bool
  | [], _ => true
  | _ :: _, [] => false
  | p :: ps, c :: cs => p = c && leadsWith ps cs

/-- Match a literal character sequence at the head of the input,
returning the remainder on success. -/
def matchLit : List Char → List Char → Option (List Char)
  | [], l => some l
  | _ :: _, [] => none
  | p :: ps, c :: cs => if p = c then matchLit ps cs else none

/-- Join a list of strings with a separator, as str.join does. -/
def joinSep (sep : String) : List String → String
  | [] => ""
  | [s] => s
  | s :: rest => s ++ sep ++ joinSep sep rest

/-! ### Calendar/date age filter

From app/utils/date_utils.py, is_recent: the check computes the
timedelta from the instant to now and compares its day count strictly:
delta.days < days.  From app/scrapers/mihan_blockchain.py,
get_article_links lines 93-100: the per-link check clamps the window
to at most 3 days and compares inclusively:
time_diff <= timedelta(days=min(max_age_days, 3)).
Instants are embedded at day precision as integers. -/

/-- Embeds is_recent of date_utils.py: true when now minus the
instant is strictly below the day window. -/
def is_recent (nowDay instDay : Int) (days : Int) : Bool :=
  nowDay - instDay < days

/-- Embeds the MihanBlockchain link-age check: inclusive comparison
against the window clamped to at most 3 days. -/
def mihanWithinAge (nowDay instDay : Int) (maxAgeDays : Int) : Bool :=
  nowDay - instDay ≤ min maxAgeDays 3

/-! ### Retrying submission (app/services/api_client.py, post_news_data)

The loop runs attempt = 0 .. max_retries - 1.  A successful post
returns at once.  A failed attempt on the last index re-raises;
otherwise the client sleeps 2 ^ attempt seconds and retries.  The
outcome oracle gives the result of each attempt (true = 2xx). -/

/-- Trace of one post_news_data call: attempts actually made, the
sleep delays between consecutive attempts, and whether it returned
normally (ok = false means the final exception was re-raised). -/
structure PostTrace where
  attempts : Nat
  delays : List Nat
  ok : Bool
deriving DecidableEq, Repr

/-- Embeds the retry loop of post_news_data, recursing over the
remaining iterations of range(max_retries); attempt is the current
index. -/
def postLoop (outcome : Nat → Bool) : Nat → Nat → PostTrace
  | 0, _ => ⟨0, [], false⟩
  | r + 1, attempt =>
    if outcome attempt then ⟨1, [], true⟩
    else if r = 0 then ⟨1, [], false⟩
    else
      let rest := postLoop outcome r (attempt + 1)
      ⟨rest.attempts + 1, 2 ^ attempt :: rest.delays, rest.ok⟩

/-- Embeds post_news_data: run the retry loop from attempt 0. -/
def post_news_data (outcome : Nat → Bool) (maxRetries : Nat) : PostTrace :=
  postLoop outcome maxRetries 0

/-- Embeds the send loop of run_scraper
(app/controllers/scraper_controller.py lines 110-150): each collected
article is posted inside its own try block; a post that raises is
logged as failed and the loop continues with the next article.
Returns the titles posted successfully and the titles that failed. -/
def controllerSendLoop (maxRetries : Nat) :
    List (String × (Nat → Bool)) → List String × List String
  | [] => ([], [])
  | (title, outcome) :: rest =>
    let res := post_news_data outcome maxRetries
    let tail := controllerSendLoop maxRetries rest
    if res.ok then (title :: tail.1, tail.2) else (tail.1, title :: tail.2)

/-! ### Per-run dedup loop (app/scrapers/base_scraper.py, run, lines 152-196)

Each discovered link is checked against the remote store.  A hit
increments articles_existing_in_api; when that counter reaches 5 the
loop breaks.  The counter is never decremented or reset.  A failing
existence check is caught and the item proceeds as not existing. -/

/-- Result of the remote existence check for one link. -/
inductive ExistsCheck where
  | found
  | notFound
  | errored
deriving DecidableEq, Repr

/-- Discovered link together with the store's answer for it. -/
structure LinkItem where
  url : String
  inDb : ExistsCheck
deriving DecidableEq, Repr

/-- Embeds the existence-check portion of BaseScraper.run: returns the
urls for which a fetch is attempted, threading the intra-run dedup set
and the cumulative duplicate counter; a counter value of 5 breaks. -/
def runExistenceLoop (seen : List String) (hits : Nat) :
    List LinkItem → List String
  | [] => []
  | item :: rest =>
    if item.url ∈ seen then runExistenceLoop seen hits rest
    else
      match item.inDb with
      | .found =>
        if hits + 1 ≥ 5 then []
        else runExistenceLoop (item.url :: seen) (hits + 1) rest
      | .notFound => item.url :: runExistenceLoop (item.url :: seen) hits rest
      | .errored => item.url :: runExistenceLoop (item.url :: seen) hits rest

/-- Urls fetched during one run, from an empty dedup state. -/
def fetchedUrls (items : List LinkItem) : List String :=
  runExistenceLoop [] 0 items

/-- Modelled from the spec: the consecutive-duplicate counter the spec
describes, where an item that does not exist resets the count to zero.
Used only to compare the spec reading against the code. -/
def specConsecutiveLoop (seen : List String) (hits : Nat) :
    List LinkItem → List String
  | [] => []
  | item :: rest =>
    if item.url ∈ seen then specConsecutiveLoop seen hits rest
    else
      match item.inDb with
      | .found =>
        if hits + 1 ≥ 5 then []
        else specConsecutiveLoop (item.url :: seen) (hits + 1) rest
      | .notFound => item.url :: specConsecutiveLoop (item.url :: seen) 0 rest
      | .errored => item.url :: specConsecutiveLoop (item.url :: seen) 0 rest

/-- Urls fetched under the spec's consecutive-counter reading. -/
def specFetchedUrls (items : List LinkItem) : List String :=
  specConsecutiveLoop [] 0 items

/-! ### Processing order (base_scraper.py line 132, mihan_blockchain.py line 119)

BaseScraper.run sorts the discovered links by the date string in
reverse (newest first, Python stable sort) before the loop;
MihanBlockchain.get_article_links sorts its result ascending (oldest
first, also stable) before returning it. -/

/-- Discovered link record: url plus its formatted date string. -/
structure ArticleLink where
  link : String
  date : String
deriving DecidableEq, Repr

/-- Embeds the sort in BaseScraper.run: stable sort, newest date
string first (list.sort with reverse=True). -/
def runProcessingOrder (links : List ArticleLink) : List ArticleLink :=
  List.insertionSort (fun a b => b.date ≤ a.date) links

/-- Embeds the sort at the end of MihanBlockchain.get_article_links:
stable sort, oldest date string first. -/
def mihanDiscoveryOrder (links : List ArticleLink) : List ArticleLink :=
  List.insertionSort (fun a b => a.date ≤ b.date) links

/-! ### Image upload and the per-article upload block

From app/services/api_client.py, upload_image: a RequestException
anywhere in download or upload is caught inside the function, which
then returns the original url; any other exception escapes.  From
app/scrapers/base_scraper.py, run, lines 250-279: the thumbnail upload
is wrapped in try/except setting the thumbnail to None on an escaping
exception; each body-image upload is wrapped in try/except appending
nothing on an escaping exception; the article is appended afterwards
in every case. -/

/-- Outcome of one upload_image call against the image store. -/
inductive UploadOutcome where
  | ok (newUrl : String)
  | requestError
  | otherError
deriving DecidableEq, Repr

/-- Embeds upload_image: returns the rehosted url, or the original url
when the request fails (the RequestException branch), and propagates
any other exception. -/
def upload_image (originalUrl : String) : UploadOutcome → Except Unit String
  | .ok u => .ok u
  | .requestError => .ok originalUrl
  | .otherError => .error ()

/-- Article entering the upload block: title, optional thumbnail
(source url and its upload outcome), body images (source url and
upload outcome each). -/
structure PendingArticle where
  title : String
  thumb : Option (String × UploadOutcome)
  imgs : List (String × UploadOutcome)

/-- Article leaving the upload block. -/
structure ProcessedArticle where
  title : String
  thumbnailImage : Option String
  imagesUrl : List String
deriving DecidableEq, Repr

/-- Embeds the thumbnail part of the upload block of BaseScraper.run:
the upload call sits in a try/except whose handler sets the thumbnail
to None; no thumbnail gives None directly. -/
def uploadThumbnail : Option (String × UploadOutcome) → Option String
  | none => none
  | some (u, oc) =>
    match upload_image u oc with
    | .ok v => some v
    | .error _ => none

/-- Embeds the body-image part of the upload block of BaseScraper.run:
each upload call sits in a try/except whose handler appends nothing. -/
def uploadImages (imgs : List (String × UploadOutcome)) : List String :=
  imgs.foldr
    (fun p acc =>
      match upload_image p.1 p.2 with
      | .ok v => v :: acc
      | .error _ => acc)
    []

/-- Embeds the upload block of BaseScraper.run: thumbnail upload with
its own try/except, then each body image with its own try/except. -/
def uploadPhase (thumb : Option (String × UploadOutcome))
    (imgs : List (String × UploadOutcome)) : Option String × List String :=
  (uploadThumbnail thumb, uploadImages imgs)

/-- Embeds the tail of the per-article block: the processed article is
appended to the accumulator whatever the upload outcomes were. -/
def runUploadStep (a : PendingArticle) (acc : List ProcessedArticle) :
    List ProcessedArticle :=
  acc ++ [⟨a.title, (uploadPhase a.thumb a.imgs).1, (uploadPhase a.thumb a.imgs).2⟩]

/-! ### HTML embedding

Markup is embedded as a token stream: a tag token records whether the
source tag is a closing one (group 2 of the tag regex in
fix_html_paragraphs), its lowercased name (group 3) and its
attributes; everything between tags is a text token.  Trees are built
from tokens by a lenient stack machine mirroring the html.parser tree
builder the source uses: tags nest literally (no implied end tags), an
end tag closes the nearest matching open element (implicitly closing
anything inside it), an unmatched end tag is dropped, and elements
still open at end of input are closed when the tree is serialized. -/

/-- One lexical token of the markup. -/
inductive Tok where
  | tag (closing : Bool) (name : String) (attrs : List (String × String))
  | txt (s : String)
deriving DecidableEq, Repr

/-- One tree node: an element with attributes and children, or text. -/
inductive Node where
  | elem (name : String) (attrs : List (String × String)) (children : List Node)
  | textNode (s : String)

/-- Tags the tree builder treats as empty elements (never pushed onto
the open-element stack). -/
def voidTags : List String :=
  ["area", "base", "basefont", "bgsound", "br", "col", "command", "embed",
   "frame", "hr", "image", "img", "input", "keygen", "link", "menuitem",
   "meta", "nextid", "param", "source", "spacer", "track", "wbr"]

/-- Open element still on the stack: name, attributes, children so far. -/
abbrev Frame := String × List (String × String) × List Node

/-- Append a finished node to the innermost open element, or to the
root sequence when no element is open. -/
def pushNode (n : Node) : List Frame × List Node → List Frame × List Node
  | ([], root) => ([], root ++ [n])
  | ((t, a, cs) :: rest, root) => ((t, a, cs ++ [n]) :: rest, root)

/-- Fold a run of open frames (innermost first) into a single node:
each frame is closed and appended to the children of the next one out. -/
def rollupFrames : Frame → List Frame → Node
  | (t, a, cs), [] => .elem t a cs
  | (t, a, cs), (t2, a2, cs2) :: rest =>
    rollupFrames (t2, a2, cs2 ++ [Node.elem t a cs]) rest

/-- Split the stack at the innermost frame with the given name. -/
def splitAtTag (name : String) : List Frame → Option (List Frame × Frame × List Frame)
  | [] => none
  | f :: fs =>
    if f.1 = name then some ([], f, fs)
    else
      match splitAtTag name fs with
      | some (pre, tgt, rest) => some (f :: pre, tgt, rest)
      | none => none

/-- Handle an end tag: close the nearest matching open element,
implicitly closing everything inside it; drop the tag if nothing
matches. -/
def handleClose (name : String) (st : List Frame × List Node) :
    List Frame × List Node :=
  match splitAtTag name st.1 with
  | none => st
  | some (pre, (tn, an, csn), rest) =>
    let closed :=
      match pre with
      | [] => Node.elem tn an csn
      | f :: fs => Node.elem tn an (csn ++ [rollupFrames f fs])
    pushNode closed (rest, st.2)

/-- One step of the tree builder. -/
def parseStep (st : List Frame × List Node) : Tok → List Frame × List Node
  | .txt s => pushNode (.textNode s) st
  | .tag false name attrs =>
    if name ∈ voidTags then pushNode (.elem name attrs []) st
    else ((name, attrs, []) :: st.1, st.2)
  | .tag true name _ => handleClose name st

/-- Build the node forest for a token stream, closing any elements
still open at end of input. -/
def parseToks (ts : List Tok) : List Node :=
  let st := ts.foldl parseStep ([], [])
  match st.1 with
  | [] => st.2
  | f :: fs => st.2 ++ [rollupFrames f fs]

mutual

/-- Serialize a node back to tokens; every element gets its closing
tag (this is how str(soup) balances unclosed markup). -/
def serializeNode : Node → List Tok
  | .textNode s => [Tok.txt s]
  | .elem t a cs =>
    if t ∈ voidTags then [Tok.tag false t a]
    else Tok.tag false t a :: serializeNodes cs ++ [Tok.tag true t []]

/-- Serialize a node forest. -/
def serializeNodes : List Node → List Tok
  | [] => []
  | n :: ns => serializeNode n ++ serializeNodes ns

end

/-- Attribute lookup. -/
def getAttr (a : List (String × String)) (k : String) : Option String :=
  (a.find? (fun p => p.1 == k)).map (fun p => p.2)

/-- Split a class attribute value into whitespace separated tokens. -/
def wsWordsAux (cur : List Char) : List Char → List String
  | [] => if cur.isEmpty then [] else [⟨cur.reverse⟩]
  | c :: cs =>
    if isWsChar c then
      if cur.isEmpty then wsWordsAux [] cs
      else (⟨cur.reverse⟩ : String) :: wsWordsAux [] cs
    else wsWordsAux (c :: cur) cs

/-- Class-token membership test for a CSS class selector. -/
def hasClassTok (a : List (String × String)) (cls : String) : Bool :=
  match getAttr a "class" with
  | some v => (wsWordsAux [] v.data).contains cls
  | none => false

/-- Render attributes in source order, as the serializer does. -/
def renderAttrs : List (String × String) → String
  | [] => ""
  | (k, v) :: rest => " " ++ k ++ "=\"" ++ v ++ "\"" ++ renderAttrs rest

/-- Render one token to markup text. -/
def renderTok : Tok → String
  | .txt s => s
  | .tag true name _ => "</" ++ name ++ ">"
  | .tag false name attrs =>
    "<" ++ name ++ renderAttrs attrs ++ (if name ∈ voidTags then "/>" else ">")

/-- Render a token stream to markup text. -/
def renderToks : List Tok → String
  | [] => ""
  | t :: ts => renderTok t ++ renderToks ts

mutual

/-- Node text with no separator, as get_text() with no arguments. -/
def getAllText : Node → String
  | .textNode s => s
  | .elem _ _ cs => getAllTextList cs

/-- Forest text with no separator. -/
def getAllTextList : List Node → String
  | [] => ""
  | n :: ns => getAllText n ++ getAllTextList ns

end

mutual

/-- Descendant text strings of a node, in document order. -/
def textStrings : Node → List String
  | .textNode s => [s]
  | .elem _ _ cs => textStringsList cs

/-- Descendant text strings of a forest, in document order. -/
def textStringsList : List Node → List String
  | [] => []
  | n :: ns => textStrings n ++ textStringsList ns

end

/-- Embeds get_text(separator=space, strip=True) over a child forest:
strip every descendant string, skip empty ones, join with one space. -/
def getTextSepList (cs : List Node) : String :=
  joinSep " " (((textStringsList cs).map pyStrip).filter (fun s => s != ""))

mutual

/-- Replace every element of the target name by its text content plus
a trailing space, as the anchor/strong handling inside blockquotes in
fix_html_paragraphs does. -/
def replaceTagWithText (target : String) : Node → Node
  | .textNode s => .textNode s
  | .elem t a cs =>
    if t = target then .textNode (getAllTextList cs ++ " ")
    else .elem t a (replaceTagList target cs)

/-- Map the replacement over a forest. -/
def replaceTagList (target : String) : List Node → List Node
  | [] => []
  | n :: ns => replaceTagWithText target n :: replaceTagList target ns

end

mutual

/-- Unwrap every p element into its children, as the p handling
inside blockquotes in fix_html_paragraphs does. -/
def unwrapP : Node → List Node
  | .textNode s => [.textNode s]
  | .elem t a cs =>
    if t = "p" then unwrapPList cs
    else [.elem t a (unwrapPList cs)]

/-- Unwrap over a forest. -/
def unwrapPList : List Node → List Node
  | [] => []
  | n :: ns => unwrapP n ++ unwrapPList ns

end

/-- Transform applied under each blockquote: inline anchors, then
strong elements, then unwrap inner paragraphs. -/
def bqTransformChildren (cs : List Node) : List Node :=
  unwrapPList (replaceTagList "strong" (replaceTagList "a" cs))

mutual

/-- Apply the blockquote transform at every blockquote of the tree. -/
def fixBlockquotes : Node → Node
  | .textNode s => .textNode s
  | .elem t a cs =>
    if t = "blockquote" then .elem t a (bqTransformChildren cs)
    else .elem t a (fixBlockquotesList cs)

/-- Apply the blockquote transform over a forest. -/
def fixBlockquotesList : List Node → List Node
  | [] => []
  | n :: ns => fixBlockquotes n :: fixBlockquotesList ns

end

/-- Tags matched by the block-boundary regex of fix_html_paragraphs. -/
def triggerNames : List String :=
  ["p", "h1", "h2", "h3", "h4", "h5", "h6", "figure", "blockquote"]

/-- Embeds the scan of fix_html_paragraphs over the serialized markup:
an opening trigger tag while a paragraph is open gets a synthetic
closing p tag inserted before it; opening p sets the flag, closing p
clears it; a still-open paragraph is closed at end of input. -/
def insertPCloseAux (flag : Bool) : List Tok → List Tok
  | [] => if flag then [Tok.tag true "p" []] else []
  | Tok.txt s :: ts => Tok.txt s :: insertPCloseAux flag ts
  | Tok.tag closing name attrs :: ts =>
    if name ∈ triggerNames then
      if closing then
        Tok.tag closing name attrs ::
          insertPCloseAux (if name = "p" then false else flag) ts
      else
        (if flag then [Tok.tag true "p" []] else []) ++
          Tok.tag closing name attrs :: insertPCloseAux (decide (name = "p")) ts
    else
      Tok.tag closing name attrs :: insertPCloseAux flag ts

/-- Embeds fix_html_paragraphs: parse, rewrite blockquote interiors,
serialize back to markup, then run the closing-p insertion scan. -/
def fix_html_paragraphs (ts : List Tok) : List Tok :=
  insertPCloseAux false (serializeNodes (fixBlockquotesList (parseToks ts)))

/-! ### Image placeholder detection and removal -/

/-- Literal part of the image placeholder token. -/
def phLit : List Char := "**IMAGE_PLACEHOLDER_img".data

/-- After the literal: one or more digits then two asterisks, as the
placeholder regex requires; returns the remainder on success. -/
def phAfterLit (l : List Char) : Option (List Char) :=
  let ds := l.takeWhile Char.isDigit
  if ds.isEmpty then none
  else matchLit ['*', '*'] (l.drop ds.length)

/-- Search for the placeholder pattern anywhere in the characters, as
re.search with the placeholder regex does. -/
def containsPlaceholder : List Char → Bool
  | [] => false
  | c :: cs =>
    (match matchLit phLit (c :: cs) with
     | some rest => (phAfterLit rest).isSome
     | none => false) ||
    containsPlaceholder cs

/-- Match the placeholder-removal pattern at the head of the input:
optional whitespace, the literal, digits, two asterisks, optional
whitespace; returns the remainder on success. -/
def phMatchAt (l : List Char) : Option (List Char) :=
  match matchLit phLit (l.dropWhile isWsChar) with
  | none => none
  | some l2 =>
    match phAfterLit l2 with
    | none => none
    | some l3 => some (l3.dropWhile isWsChar)

/-- Fuelled scan replacing each placeholder occurrence (with its
surrounding whitespace) by one space, as re.sub does. -/
def stripPhFuel : Nat → List Char → List Char
  | 0, l => l
  | _ + 1, [] => []
  | fuel + 1, c :: cs =>
    match phMatchAt (c :: cs) with
    | some rest => ' ' :: stripPhFuel fuel rest
    | none => c :: stripPhFuel fuel cs

/-- Embeds the placeholder removal applied to extracted element text:
substitute placeholders by a space, then strip. -/
def stripPlaceholders (s : String) : String :=
  pyStrip ⟨stripPhFuel s.data.length s.data⟩

/-! ### Segmentation (extract_content) -/

/-- Counters initialized at the start of extract_content. -/
structure Counters where
  p : Nat
  img : Nat
  h1 : Nat
  h2 : Nat
  h3 : Nat
  h4 : Nat
  h5 : Nat
  h6 : Nat
  blockquote : Nat
  figure : Nat
  li : Nat
deriving DecidableEq, Repr

/-- All counters start at zero. -/
def Counters.start : Counters := ⟨0, 0, 0, 0, 0, 0, 0, 0, 0, 0, 0⟩

/-- Counter value for a heading tag name. -/
def Counters.head (c : Counters) : String → Nat
  | "h1" => c.h1
  | "h2" => c.h2
  | "h3" => c.h3
  | "h4" => c.h4
  | "h5" => c.h5
  | "h6" => c.h6
  | _ => 0

/-- Bump the counter of a heading tag name. -/
def Counters.bumpHead (c : Counters) : String → Counters
  | "h1" => { c with h1 := c.h1 + 1 }
  | "h2" => { c with h2 := c.h2 + 1 }
  | "h3" => { c with h3 := c.h3 + 1 }
  | "h4" => { c with h4 := c.h4 + 1 }
  | "h5" => { c with h5 := c.h5 + 1 }
  | "h6" => { c with h6 := c.h6 + 1 }
  | _ => c

/-- Tag list passed to find_all in extract_content. -/
def relevantTags : List String :=
  ["p", "h1", "h2", "h3", "h4", "h5", "h6", "figure", "blockquote", "li"]

/-- Text of a common-extraction element (p, heading, li): joined and
stripped descendant strings, whitespace collapsed, placeholders
removed; none when the element is dropped without bumping a counter. -/
def textValue (cs : List Node) : Option String :=
  let t := pyStrip (collapseWs (getTextSepList cs))
  if t = "" then none
  else
    let t2 := stripPlaceholders t
    if t2 = "" then none else some t2

mutual

/-- Embeds the element loop of extract_content on one node.  The
blockquote branch stores inner markup and consumes its whole subtree;
the figure branch emits an img key for a placeholder-only figure; p,
headings and li go through common text extraction; a p below a
blockquote is skipped (ancestor check); every other element is
descended into, since find_all lists all descendants. -/
def segmentNode (inBq : Bool) (st : Counters × List (String × String)) :
    Node → Counters × List (String × String)
  | .textNode _ => st
  | .elem name _ cs =>
    if name ∈ relevantTags then
      if name = "figure" then
        match (textStringsList cs).find? (fun s => containsPlaceholder s.data) with
        | some ph =>
          let phText := pyStrip ph
          if getTextSepList cs = phText then
            segmentNodes inBq
              ({ st.1 with img := st.1.img + 1 },
               st.2 ++ [("img" ++ toString st.1.img, phText)]) cs
          else segmentNodes inBq st cs
        | none => segmentNodes inBq st cs
      else if name = "blockquote" then
        let cleaned := pyStrip (renderToks (serializeNodes cs))
        if cleaned = "" then segmentNodes true st cs
        else
          ({ st.1 with blockquote := st.1.blockquote + 1 },
           st.2 ++ [("blockquote" ++ toString st.1.blockquote, cleaned)])
      else if name = "p" then
        if inBq then segmentNodes inBq st cs
        else
          match textValue cs with
          | none => segmentNodes inBq st cs
          | some v =>
            segmentNodes inBq
              ({ st.1 with p := st.1.p + 1 },
               st.2 ++ [("p" ++ toString st.1.p, v)]) cs
      else if name = "li" then
        match textValue cs with
        | none => segmentNodes inBq st cs
        | some v =>
          segmentNodes inBq
            ({ st.1 with li := st.1.li + 1 },
             st.2 ++ [("li" ++ toString st.1.li, v)]) cs
      else
        match textValue cs with
        | none => segmentNodes inBq st cs
        | some v =>
          segmentNodes inBq
            (st.1.bumpHead name,
             st.2 ++ [(name ++ toString (st.1.head name), v)]) cs
    else segmentNodes inBq st cs

/-- Walk a forest in document order. -/
def segmentNodes (inBq : Bool) (st : Counters × List (String × String)) :
    List Node → Counters × List (String × String)
  | [] => st
  | n :: ns => segmentNodes inBq (segmentNode inBq st n) ns

end

mutual

/-- First element (document order) satisfying the predicate. -/
def findElemNode (p : Node → Bool) : Node → Option Node
  | .textNode _ => none
  | .elem t a cs =>
    if p (.elem t a cs) then some (.elem t a cs) else findElemList p cs

/-- First match over a forest. -/
def findElemList (p : Node → Bool) : List Node → Option Node
  | [] => none
  | n :: ns =>
    match findElemNode p n with
    | some r => some r
    | none => findElemList p ns

end

mutual

/-- Remove every element satisfying the predicate (decompose). -/
def removeAllNode (p : Node → Bool) : Node → List Node
  | .textNode s => [.textNode s]
  | .elem t a cs =>
    if p (.elem t a cs) then [] else [.elem t a (removeAllList p cs)]

/-- Removal over a forest. -/
def removeAllList (p : Node → Bool) : List Node → List Node
  | [] => []
  | n :: ns => removeAllNode p n ++ removeAllList p ns

end

mutual

/-- Remove the first element (document order) satisfying the
predicate; none when nothing matched. -/
def removeFirstNode (p : Node → Bool) : Node → Option (List Node)
  | .textNode _ => none
  | .elem t a cs =>
    if p (.elem t a cs) then some []
    else
      match removeFirstList p cs with
      | some cs2 => some [.elem t a cs2]
      | none => none

/-- First removal over a forest. -/
def removeFirstList (p : Node → Bool) : List Node → Option (List Node)
  | [] => none
  | n :: ns =>
    match removeFirstNode p n with
    | some repl => some (repl ++ ns)
    | none =>
      match removeFirstList p ns with
      | some ns2 => some (n :: ns2)
      | none => none

end

/-- Remove the first match when there is one. -/
def removeFirstOr (p : Node → Bool) (ns : List Node) : List Node :=
  (removeFirstList p ns).getD ns

/-- Element-with-class test for a tag.class selector. -/
def isElemWithClass (name cls : String) : Node → Bool
  | .elem t a _ => t == name && hasClassTok a cls
  | .textNode _ => false

/-- Nav element that directly contains the EZ TOC list. -/
def isEzTocNav : Node → Bool
  | .elem "nav" _ cs =>
    cs.any (fun c =>
      match c with
      | .elem "ul" a _ => hasClassTok a "ez-toc-list"
      | _ => false)
  | _ => false

/-- Embeds the container choice of extract_content: the main-article
element, else the article-content div, else body, else the whole
document; segmentation then walks the chosen container's children. -/
def containerChildren (roots : List Node) : List Node :=
  match findElemList (isElemWithClass "article" "main-article") roots with
  | some (.elem _ _ cs) => cs
  | some (.textNode _) => []
  | none =>
    match findElemList (isElemWithClass "div" "article-content") roots with
    | some (.elem _ _ cs) => cs
    | some (.textNode _) => []
    | none =>
      match findElemList
          (fun n => match n with | .elem t _ _ => t == "body" | _ => false) roots with
      | some (.elem _ _ cs) => cs
      | some (.textNode _) => []
      | none => roots

/-- Embeds the removal steps of extract_content: the EZ TOC container,
title and nav (first match each), then every post-source and post-tag
div and every script, style, noscript, header, footer and aside. -/
def cleanContainer (ns : List Node) : List Node :=
  let n1 := removeFirstOr
    (fun n => match n with
      | .elem _ a _ => getAttr a "id" == some "ez-toc-container"
      | _ => false) ns
  let n2 := removeFirstOr (isElemWithClass "p" "ez-toc-title") n1
  let n3 := removeFirstOr isEzTocNav n2
  let n4 := removeAllList (isElemWithClass "div" "jeg_post_source") n3
  let n5 := removeAllList (isElemWithClass "div" "jeg_post_tags") n4
  removeAllList
    (fun n => match n with
      | .elem t _ _ => ["script", "style", "noscript", "header", "footer", "aside"].contains t
      | _ => false) n5

/-- Embeds extract_content: normalize the markup, parse it, choose and
clean the container, then run the segmentation walk. -/
def extract_content (ts : List Tok) : List (String × String) :=
  (segmentNodes false (Counters.start, [])
    (cleanContainer (containerChildren (parseToks (fix_html_paragraphs ts))))).2

/-! ### Stage B: image extraction and placeholder substitution
(extract_and_replace_images, mihan_blockchain.py lines 275-333)

The figure regex matches one wp-block-image construct at a time, in
document order; the body is embedded as a chunk sequence in which each
such construct is one chunk carrying the captured url, the captured
caption markup, whether its position lies in an excluded container,
and its literal token run (its identity for the textual replace, which
substitutes every occurrence equal to the matched text). -/

/-- One matched wp-block-image construct of the original markup. -/
structure ImgConstruct where
  url : String
  captionHtml : Option String
  excluded : Bool
  raw : List Tok
deriving DecidableEq, Repr

/-- Document chunk: an image construct or any other run of markup. -/
inductive Chunk where
  | construct (c : ImgConstruct)
  | otherHtml (ts : List Tok)
deriving DecidableEq, Repr

/-- One entry of the images list built by extract_and_replace_images. -/
structure ImageRec where
  id : String
  url : String
  caption : Option String
  type : String
deriving DecidableEq, Repr

/-- Scan from a character after an opening angle bracket: at least one
character other than a closing bracket, then the closing bracket;
returns the remainder, none when the tag never closes. -/
def scanToGt : List Char → Option (List Char)
  | [] => none
  | c :: cs => if c = '>' then some cs else scanToGt cs

/-- Span of one markup tag for the caption-cleaning regex. -/
def tagSpanEnd : List Char → Option (List Char)
  | [] => none
  | c :: cs => if c = '>' then none else scanToGt cs

/-- Fuelled removal of markup tags from caption text, as re.sub with
the tag pattern does. -/
def stripTagsFuel : Nat → List Char → List Char
  | 0, l => l
  | _ + 1, [] => []
  | fuel + 1, c :: cs =>
    if c = '<' then
      match tagSpanEnd cs with
      | some rest => stripTagsFuel fuel rest
      | none => c :: stripTagsFuel fuel cs
    else c :: stripTagsFuel fuel cs

/-- Embeds the caption cleaning: when caption markup was captured and
non-empty, drop its tags and strip; otherwise no caption. -/
def cleanCaption : Option String → Option String
  | none => none
  | some s =>
    if s = "" then none
    else some (pyStrip ⟨stripTagsFuel s.data.length s.data⟩)

/-- Tokens of the placeholder figure substituted for a construct. -/
def placeholderFigure (n : Nat) : List Tok :=
  [Tok.tag false "figure" [],
   Tok.txt ("**IMAGE_PLACEHOLDER_img" ++ toString n ++ "** "),
   Tok.tag true "figure" []]

/-- Embeds processed_html.replace(full_match, placeholder): every
chunk equal to the matched construct is substituted. -/
def replaceConstructChunk (c : ImgConstruct) (ph : List Tok) :
    List Chunk → List Chunk :=
  List.map (fun ch => if ch = Chunk.construct c then Chunk.otherHtml ph else ch)

/-- Constructs of the original document, in match order. -/
def docConstructs : List Chunk → List ImgConstruct
  | [] => []
  | .construct c :: rest => c :: docConstructs rest
  | .otherHtml _ :: rest => docConstructs rest

/-- Embeds the match loop of extract_and_replace_images: skip a match
in an excluded container or with an already-processed url; otherwise
record the image under the next sequential id, substitute the
placeholder for every occurrence of the matched text, remember the
url, and bump the counter. -/
def stageBLoop : List ImgConstruct → List Chunk → List ImageRec → List String → Nat →
    List Chunk × List ImageRec
  | [], doc, images, _, _ => (doc, images)
  | c :: cs, doc, images, seen, ctr =>
    if c.excluded || seen.contains c.url then stageBLoop cs doc images seen ctr
    else
      stageBLoop cs
        (replaceConstructChunk c (placeholderFigure ctr) doc)
        (images ++ [⟨"img" ++ toString ctr, c.url, cleanCaption c.captionHtml, "figure"⟩])
        (c.url :: seen) (ctr + 1)

/-- Embeds extract_and_replace_images over a chunked body. -/
def extract_and_replace_images (doc : List Chunk) :
    List Chunk × List ImageRec :=
  stageBLoop (docConstructs doc) doc [] [] 0

/-- Flatten a chunked body back to its token stream. -/
def flattenDoc : List Chunk → List Tok
  | [] => []
  | .construct c :: rest => c.raw ++ flattenDoc rest
  | .otherHtml ts :: rest => ts ++ flattenDoc rest

/-- Embeds the Stage B plus segmentation pipeline used by
process_article_content: extract and replace the images, then segment
the substituted markup. -/
def processBody (doc : List Chunk) :
    List (String × String) × List ImageRec :=
  ((extract_and_replace_images doc).1, (extract_and_replace_images doc).2) |>
    fun r => (extract_content (flattenDoc r.1), r.2)

/-- Keys of the content map that use the image namespace. -/
def imgKeys (content : List (String × String)) : List String :=
  (content.map Prod.fst).filter (fun k => leadsWith "img".data k.data)

/-- Token run of a well-formed wp-block-image construct with the given
image url and optional caption markup. -/
def figConstructRaw (u : String) (cap : Option String) : List Tok :=
  [Tok.tag false "div" [("class", "wp-block-image")],
   Tok.tag false "figure" [],
   Tok.tag false "a" [("href", u)],
   Tok.tag false "img" [("data-lazy-src", u)],
   Tok.tag true "a" []] ++
  (match cap with
   | some s => [Tok.tag false "figcaption" [], Tok.txt s, Tok.tag true "figcaption" []]
   | none => []) ++
  [Tok.tag true "figure" [], Tok.tag true "div" []]

/-- Construct chunk with the given url and caption, not excluded. -/
def figConstruct (u : String) (cap : Option String) : ImgConstruct :=
  ⟨u, cap, false, figConstructRaw u cap⟩

/-! ### Concrete inputs used in the analysis -/

/-- Tokens of the markup with an unclosed paragraph before a heading. -/
def toksC3 : List Tok :=
  [Tok.tag false "p" [], Tok.txt "A", Tok.tag false "h2" [], Tok.txt "B",
   Tok.tag true "h2" []]

/-- Tokens of the blockquote markup with an inner paragraph holding an
anchor. -/
def toksC4 : List Tok :=
  [Tok.tag false "blockquote" [], Tok.tag false "p" [], Tok.txt "Quote ",
   Tok.tag false "a" [("href", "#")], Tok.txt "link", Tok.tag true "a" [],
   Tok.tag true "p" [], Tok.tag true "blockquote" []]

/-- Body consisting of two byte-identical image constructs with the
same source url. -/
def docDup : List Chunk :=
  [Chunk.construct (figConstruct "http://cdn/x.jpg" none),
   Chunk.construct (figConstruct "http://cdn/x.jpg" none)]

/-- Body consisting of two textually different image constructs with
the same source url (captions differ). -/
def docDistinct : List Chunk :=
  [Chunk.construct (figConstruct "http://cdn/x.jpg" (some "cap1")),
   Chunk.construct (figConstruct "http://cdn/x.jpg" (some "cap2"))]

/-- Discovery list in which items one and three to six already exist
in the store and items two and seven do not. -/
def dupItems : List LinkItem :=
  [⟨"u1", .found⟩, ⟨"u2", .notFound⟩, ⟨"u3", .found⟩, ⟨"u4", .found⟩,
   ⟨"u5", .found⟩, ⟨"u6", .found⟩, ⟨"u7", .notFound⟩]

/-- Discovery prefix of five distinct items that all already exist. -/
def fiveExisting : List LinkItem :=
  [⟨"e1", .found⟩, ⟨"e2", .found⟩, ⟨"e3", .found⟩, ⟨"e4", .found⟩,
   ⟨"e5", .found⟩]

/-! ### Decimal representation helpers

Used to reason about the sequential img ids: Nat.repr is rewritten to
a most-significant-first digit list with a computable decimal value
inverse, giving injectivity of numeral printing. -/

/-- Most-significant-first decimal digit characters of a number. -/
def natDigitsMSB (n : Nat) : List Char :=
  if _h : n < 10 then [Nat.digitChar n]
  else natDigitsMSB (n / 10) ++ [Nat.digitChar (n % 10)]
termination_by n
decreasing_by exact Nat.div_lt_self (by omega) (by norm_num)

/-- Numeric value of a decimal digit character. -/
def digitVal (c : Char) : Nat := c.toNat - 48

/-- Decimal value of a most-significant-first digit character list. -/
def decVal (l : List Char) : Nat :=
  l.foldl (fun a c => a * 10 + digitVal c) 0

/-- Count of constructs the Stage B loop will accept, given the urls
already processed. -/
def pendingCount : List ImgConstruct → List String → Nat
  | [], _ => 0
  | c :: cs, seen =>
    if c.excluded || seen.contains c.url then pendingCount cs seen
    else pendingCount cs (c.url :: seen) + 1

/-! ### Helper lemmas -/

lemma digitVal_digitChar (d : Nat) (hd : d < 10) :
    digitVal (Nat.digitChar d) = d := by
  interval_cases d <;> rfl

lemma decVal_append_singleton (xs : List Char) (c : Char) :
    decVal (xs ++ [c]) = decVal xs * 10 + digitVal c := by
  simp [decVal, List.foldl_append]

lemma decVal_natDigitsMSB (n : Nat) : decVal (natDigitsMSB n) = n := by
  induction n using Nat.strong_induction_on with
  | _ n ih =>
    rw [natDigitsMSB]
    split
    · next h =>
      simp [decVal, digitVal_digitChar n h]
    · next h =>
      rw [decVal_append_singleton,
        ih (n / 10) (Nat.div_lt_self (by omega) (by norm_num)),
        digitVal_digitChar (n % 10) (Nat.mod_lt n (by norm_num))]
      omega

lemma toDigitsCore_eq_natDigitsMSB :
    ∀ (fuel n : Nat) (ds : List Char), n < 10 ^ (fuel + 1) →
      Nat.toDigitsCore 10 (fuel + 1) n ds = natDigitsMSB n ++ ds := by
  intro fuel
  induction fuel with
  | zero =>
    intro n ds hn
    have h10 : n < 10 := by simpa using hn
    have hdiv : n / 10 = 0 := Nat.div_eq_of_lt h10
    simp [Nat.toDigitsCore, hdiv, natDigitsMSB, h10, Nat.mod_eq_of_lt h10]
  | succ f ih =>
    intro n ds hn
    by_cases h10 : n < 10
    · have hdiv : n / 10 = 0 := Nat.div_eq_of_lt h10
      simp [Nat.toDigitsCore, hdiv, natDigitsMSB, h10, Nat.mod_eq_of_lt h10]
    · have hdiv : ¬ n / 10 = 0 := by omega
      have hlt : n / 10 < 10 ^ (f + 1) := by
        rw [Nat.div_lt_iff_lt_mul (by norm_num : 0 < 10)]
        calc n < 10 ^ (f + 1 + 1) := hn
        _ = 10 ^ (f + 1) * 10 := by ring
      rw [show Nat.toDigitsCore 10 (f + 1 + 1) n ds =
          Nat.toDigitsCore 10 (f + 1) (n / 10) (Nat.digitChar (n % 10) :: ds) by
        simp [Nat.toDigitsCore, hdiv]]
      rw [ih (n / 10) _ hlt]
      conv_rhs => rw [natDigitsMSB]
      simp [h10]

lemma natToString_eq_natDigitsMSB (n : Nat) :
    toString n = List.asString (natDigitsMSB n) := by
  have hn : n < 10 ^ (n + 1) := by
    calc n < 10 ^ n := Nat.lt_pow_self (by norm_num) n
    _ ≤ 10 ^ (n + 1) := Nat.pow_le_pow_right (by norm_num) (Nat.le_succ n)
  show Nat.repr n = _
  rw [Nat.repr, Nat.toDigits, toDigitsCore_eq_natDigitsMSB n n [] hn,
    List.append_nil]

lemma natToString_inj {m n : Nat} (h : toString m = toString n) : m = n := by
  rw [natToString_eq_natDigitsMSB, natToString_eq_natDigitsMSB] at h
  have hdata : natDigitsMSB m = natDigitsMSB n := by
    have := congrArg String.data h
    simpa [List.asString] using this
  calc m = decVal (natDigitsMSB m) := (decVal_natDigitsMSB m).symm
  _ = decVal (natDigitsMSB n) := by rw [hdata]
  _ = n := decVal_natDigitsMSB n

lemma imgId_inj : Function.Injective (fun i : Nat => "img" ++ toString i) := by
  intro a b h
  apply natToString_inj
  have hd := congrArg String.data h
  simp only [String.data_append] at hd
  exact String.ext (List.append_cancel_left hd)

lemma range_pow_shift (r a : Nat) :
    (List.range (r + 1)).map (fun i => 2 ^ (a + i)) =
      2 ^ a :: (List.range r).map (fun i => 2 ^ (a + 1 + i)) := by
  rw [List.range_succ_eq_map]
  simp only [List.map_cons, Nat.add_zero, List.map_map]
  refine congrArg _ (List.map_congr_left fun x _ => ?_)
  simp only [Function.comp_apply]
  congr 1
  omega

lemma postLoop_false (r a : Nat) :
    postLoop (fun _ => false) (r + 1) a =
      ⟨r + 1, (List.range r).map (fun i => 2 ^ (a + i)), false⟩ := by
  induction r generalizing a with
  | zero => rfl
  | succ k ih =>
    have step : postLoop (fun _ => false) (k + 1 + 1) a =
        ⟨(postLoop (fun _ => false) (k + 1) (a + 1)).attempts + 1,
         2 ^ a :: (postLoop (fun _ => false) (k + 1) (a + 1)).delays,
         (postLoop (fun _ => false) (k + 1) (a + 1)).ok⟩ := by
      simp [postLoop]
    rw [step, ih (a + 1), range_pow_shift]

lemma chain_pow_lt (n : Nat) :
    List.Chain' (fun a b => a < b) ((List.range n).map (fun i => 2 ^ i)) := by
  rw [List.chain'_map]
  cases n with
  | zero => simp
  | succ k =>
    rw [List.chain'_range_succ]
    intro m _
    exact Nat.pow_lt_pow_succ (by norm_num)

lemma chain_pow_double (n : Nat) :
    List.Chain' (fun a b => b = 2 * a) ((List.range n).map (fun i => 2 ^ i)) := by
  rw [List.chain'_map]
  cases n with
  | zero => simp
  | succ k =>
    rw [List.chain'_range_succ]
    intro m _
    rw [pow_succ]
    ring

lemma uploadImages_eq_filterMap (imgs : List (String × UploadOutcome)) :
    uploadImages imgs = imgs.filterMap (fun p =>
      match p.2 with
      | .ok w => some w
      | .requestError => some p.1
      | .otherError => none) := by
  induction imgs with
  | nil => rfl
  | cons p ps ih =>
    obtain ⟨u, oc⟩ := p
    cases oc <;> simp [uploadImages, upload_image, List.filterMap_cons] <;>
      simpa [uploadImages] using ih

lemma range_shift_imgid (k ctr : Nat) :
    (List.range (k + 1)).map (fun i => "img" ++ toString (ctr + i)) =
      ("img" ++ toString ctr) ::
        (List.range k).map (fun i => "img" ++ toString (ctr + 1 + i)) := by
  rw [List.range_succ_eq_map]
  simp only [List.map_cons, Nat.add_zero, List.map_map]
  refine congrArg _ (List.map_congr_left fun x _ => ?_)
  simp only [Function.comp_apply]
  congr 2
  omega

lemma stageBLoop_ids : ∀ (cs : List ImgConstruct) (doc : List Chunk)
    (images : List ImageRec) (seen : List String) (ctr : Nat),
    ((stageBLoop cs doc images seen ctr).2).map (fun r => r.id) =
      images.map (fun r => r.id) ++
        (List.range (pendingCount cs seen)).map (fun i => "img" ++ toString (ctr + i)) := by
  intro cs
  induction cs with
  | nil =>
    intro doc images seen ctr
    simp [stageBLoop, pendingCount]
  | cons c cs ih =>
    intro doc images seen ctr
    by_cases h : c.excluded = true ∨ c.url ∈ seen
    · simp [stageBLoop, pendingCount, h, ih]
    · rw [show stageBLoop (c :: cs) doc images seen ctr =
          stageBLoop cs
            (replaceConstructChunk c (placeholderFigure ctr) doc)
            (images ++ [⟨"img" ++ toString ctr, c.url, cleanCaption c.captionHtml, "figure"⟩])
            (c.url :: seen) (ctr + 1) from by
        simp [stageBLoop, h]]
      rw [ih]
      rw [show pendingCount (c :: cs) seen = pendingCount cs (c.url :: seen) + 1 from by
        simp [pendingCount, h]]
      rw [range_shift_imgid]
      simp

lemma insertPCloseAux_idem : ∀ (ts : List Tok) (flag : Bool),
    insertPCloseAux flag (insertPCloseAux flag ts) = insertPCloseAux flag ts := by
  intro ts
  induction ts with
  | nil =>
    intro flag
    cases flag <;> rfl
  | cons t ts ih =>
    intro flag
    cases t with
    | txt s => simp [insertPCloseAux, ih]
    | tag closing name attrs =>
      by_cases htrig : name ∈ triggerNames
      · cases closing with
        | true =>
          simp only [insertPCloseAux, htrig, if_true, if_pos]
          simp [insertPCloseAux, htrig, ih]
        | false =>
          by_cases hp : name = "p"
          · subst hp
            cases flag with
            | false =>
              simp [insertPCloseAux, htrig, ih]
            | true =>
              have hmem : "p" ∈ triggerNames := by decide
              simp [insertPCloseAux, htrig, hmem, ih]
          · cases flag with
            | false =>
              simp [insertPCloseAux, htrig, hp, ih]
            | true =>
              have hmem : "p" ∈ triggerNames := by decide
              simp [insertPCloseAux, htrig, hmem, hp, ih]
      · simp [insertPCloseAux, htrig, ih]

/-! ### Claim theorems -/

/-- C1 counterexample: a body holding two byte-identical figure
constructs with one shared url yields one image id (img0) but two img
keys in the content map (img0 and img1, both fresh-counter keys), so
the claimed key/id set equality and the claimed reuse of the Stage B
placeholder id both fail at this input. -/
theorem claim_C1_counterexample :
    imgKeys (processBody docDup).1 = ["img0", "img1"] ∧
    (processBody docDup).2.map (fun r => r.id) = ["img0"] ∧
    "img1" ∈ imgKeys (processBody docDup).1 ∧
    "img1" ∉ (processBody docDup).2.map (fun r => r.id) := by
  refine ⟨by decide, by decide, by decide, by decide⟩

/-- C1 amended: Stage B assigns image ids sequentially (the id list of
every extraction is exactly img0..img(n-1), hence duplicate-free),
while segmentation keys placeholder-only figures with a fresh img
counter in document order rather than reusing the Stage B placeholder
id; the key set therefore need not equal the id set, as the body with
two byte-identical constructs shows. -/
theorem claim_C1 :
    (∀ doc : List Chunk,
      ((extract_and_replace_images doc).2).map (fun r => r.id) =
        (List.range ((extract_and_replace_images doc).2).length).map
          (fun i => "img" ++ toString i) ∧
      (((extract_and_replace_images doc).2).map (fun r => r.id)).Nodup) ∧
    imgKeys (processBody docDup).1 = ["img0", "img1"] ∧
    (processBody docDup).2.map (fun r => r.id) = ["img0"] := by
  refine ⟨fun doc => ?_, by decide, by decide⟩
  have hids := stageBLoop_ids (docConstructs doc) doc [] [] 0
  simp only [List.map_nil, List.nil_append, Nat.zero_add] at hids
  have hE : extract_and_replace_images doc = stageBLoop (docConstructs doc) doc [] [] 0 := rfl
  rw [hE]
  have hlen : (stageBLoop (docConstructs doc) doc [] [] 0).2.length =
      pendingCount (docConstructs doc) [] := by
    have hl := congrArg List.length hids
    simpa using hl
  refine ⟨by rw [hids, hlen], ?_⟩
  rw [hids]
  exact (List.nodup_range _).map imgId_inj

/-- C2 counterexample: in the list where item one exists, item two
does not, items three to six exist and item seven does not, the code's
cumulative duplicate counter reaches five at item six and stops, so
item seven (which does not exist) is never fetched - whereas under the
claimed consecutive counter with reset the count would be four at item
six and item seven would be fetched. -/
theorem claim_C2_counterexample :
    fetchedUrls dupItems = ["u2"] ∧
    specFetchedUrls dupItems = ["u2", "u7"] ∧
    "u7" ∉ fetchedUrls dupItems ∧
    "u7" ∈ specFetchedUrls dupItems := by
  refine ⟨by decide, by decide, by decide, by decide⟩

/-- C2 amended: existence hits are counted by a cumulative counter
that is never reset by a non-existing item; when the first five
distinct items of a list all exist, processing stops at the fifth and
nothing after it is fetched (so the 1-5-exist/6-not scenario stops
with item six unfetched), and a list with five total but
non-consecutive hits also stops early. -/
theorem claim_C2 :
    (∀ rest : List LinkItem, fetchedUrls (fiveExisting ++ rest) = []) ∧
    fetchedUrls dupItems = ["u2"] :=
  ⟨fun _ => rfl, by decide⟩

/-- C3 counterexample: segmentation of the normalized markup of
p-A-h2-B keys the heading as h20 (tag name directly followed by the
counter), not h2_0, and normalization leaves a trailing stray closing
p tag, so the claimed content map and normalized form are not
produced. -/
theorem claim_C3_counterexample :
    extract_content toksC3 = [("p0", "A"), ("h20", "B")] ∧
    "h2_0" ∉ (extract_content toksC3).map Prod.fst ∧
    fix_html_paragraphs toksC3 ≠
      [Tok.tag false "p" [], Tok.txt "A", Tok.tag true "p" [],
       Tok.tag false "h2" [], Tok.txt "B", Tok.tag true "h2" []] := by
  refine ⟨by decide, by decide, by decide⟩

/-- C3 amended: the markup with an unclosed paragraph before a heading
normalizes to the balanced paragraph and heading followed by one stray
closing p tag (the tree roundtrip first closes the open paragraph at
the end of input, then the scan inserts the closing tag before the
heading), and segmentation yields content p0 = A and h20 = B, heading
keys being the tag name directly concatenated with the counter. -/
theorem claim_C3 :
    fix_html_paragraphs toksC3 =
      [Tok.tag false "p" [], Tok.txt "A", Tok.tag true "p" [],
       Tok.tag false "h2" [], Tok.txt "B", Tok.tag true "h2" [],
       Tok.tag true "p" []] ∧
    extract_content toksC3 = [("p0", "A"), ("h20", "B")] := by
  refine ⟨by decide, by decide⟩

/-- C4 counterexample: the blockquote scenario stores the inner HTML
stripped of surrounding whitespace, so the value under blockquote0 is
Quote-space-link without the claimed trailing space. -/
theorem claim_C4_counterexample :
    extract_content toksC4 = [("blockquote0", "Quote link")] ∧
    ("blockquote0", "Quote link ") ∉ extract_content toksC4 := by
  refine ⟨by decide, by decide⟩

/-- C4 amended: the blockquote with an inner paragraph holding an
anchor normalizes with the anchor inlined as its text plus a trailing
space and the inner paragraph unwrapped, and segments to exactly one
key, blockquote0, whose value is the inner HTML stripped of leading
and trailing whitespace (Quote-space-link), with no p key emitted. -/
theorem claim_C4 :
    fix_html_paragraphs toksC4 =
      [Tok.tag false "blockquote" [], Tok.txt "Quote ", Tok.txt "link ",
       Tok.tag true "blockquote" []] ∧
    extract_content toksC4 = [("blockquote0", "Quote link")] ∧
    (extract_content toksC4).map Prod.fst = ["blockquote0"] := by
  refine ⟨by decide, by decide, by decide⟩

/-- C5 counterexample: two byte-identical figure blocks with the same
source url yield exactly one ImageRef but two img placeholder keys,
because the textual replace substitutes both occurrences of the
matched text and segmentation keys each placeholder figure with a
fresh counter. -/
theorem claim_C5_counterexample :
    (processBody docDup).2.length = 1 ∧
    (imgKeys (processBody docDup).1).length = 2 := by
  refine ⟨by decide, by decide⟩

/-- C5 amended: with two figure blocks sharing one url, exactly one
ImageRef (img0, caption from the first occurrence) is emitted; when
the blocks are byte-identical the substitution hits both occurrences
and the content map gets the two keys img0 and img1, while textually
different blocks leave the second occurrence unreplaced (it is dropped
at segmentation) and the content map gets the single key img0. -/
theorem claim_C5 :
    (processBody docDup).2.map (fun r => r.id) = ["img0"] ∧
    imgKeys (processBody docDup).1 = ["img0", "img1"] ∧
    (processBody docDistinct).2 =
      [⟨"img0", "http://cdn/x.jpg", some "cap1", "figure"⟩] ∧
    imgKeys (processBody docDistinct).1 = ["img0"] := by
  refine ⟨by decide, by decide, by decide, by decide⟩

/-- C6 counterexample: an instant whose distance from now is exactly
the window (seven days against a seven-day window) is rejected by
is_recent, which compares strictly, and an instant exactly five days
old is rejected by the MihanBlockchain link filter under a five-day
window because the window is clamped to three days - both contradict
the claimed inclusive boundary. -/
theorem claim_C6_counterexample :
    (7 : Int) - 0 = 7 ∧ is_recent 7 0 7 = false ∧
    (5 : Int) - 0 = 5 ∧ mihanWithinAge 5 0 5 = false := by
  refine ⟨by decide, by decide, by decide, by decide⟩

/-- C6 amended: is_recent is exclusive at its boundary (an instant
exactly maxAgeDays old is rejected, strictly newer instants are
accepted, and one day older is rejected), while the MihanBlockchain
link filter is inclusive at its boundary but clamps the window to
min(maxAgeDays, 3): for windows of at most three days an item exactly
maxAgeDays old passes and one day older fails. -/
theorem claim_C6 (nowDay instDay d : Int) :
    (nowDay - instDay = d → is_recent nowDay instDay d = false) ∧
    (nowDay - instDay = d + 1 → is_recent nowDay instDay d = false) ∧
    (nowDay - instDay < d → is_recent nowDay instDay d = true) ∧
    (d ≤ 3 → nowDay - instDay = d → mihanWithinAge nowDay instDay d = true) ∧
    (d ≤ 3 → nowDay - instDay = d + 1 → mihanWithinAge nowDay instDay d = false) := by
  refine ⟨fun h => ?_, fun h => ?_, fun h => ?_, fun h3 h => ?_, fun h3 h => ?_⟩ <;>
    simp only [is_recent, mihanWithinAge, h, decide_eq_false_iff_not,
      decide_eq_true_eq] <;>
    omega

/-- C6 witness: the amended boundary facts at concrete inputs. -/
theorem claim_C6_witness :
    is_recent 7 0 7 = false ∧ is_recent 8 0 7 = false ∧
    is_recent 6 0 7 = true ∧ mihanWithinAge 3 0 3 = true ∧
    mihanWithinAge 4 0 3 = false :=
  ⟨(claim_C6 7 0 7).1 (by norm_num),
   (claim_C6 8 0 7).2.1 (by norm_num),
   (claim_C6 6 0 7).2.2.1 (by norm_num),
   (claim_C6 3 0 3).2.2.2.1 (by norm_num) (by norm_num),
   (claim_C6 4 0 3).2.2.2.2 (by norm_num) (by norm_num)⟩

/-- C7: against a sink that rejects every attempt, post_news_data
makes exactly maxRetries attempts with the sleeps 1, 2, 4, ... between
them (strictly increasing, doubling per attempt) and then re-raises,
and the controller loop records that one article as failed and still
processes the remaining articles. -/
theorem claim_C7 (mr : Nat) (hmr : 1 ≤ mr) (title : String)
    (rest : List (String × (Nat → Bool))) :
    (post_news_data (fun _ => false) mr).attempts = mr ∧
    (post_news_data (fun _ => false) mr).delays =
      (List.range (mr - 1)).map (fun i => 2 ^ i) ∧
    List.Chain' (fun a b => a < b) (post_news_data (fun _ => false) mr).delays ∧
    List.Chain' (fun a b => b = 2 * a) (post_news_data (fun _ => false) mr).delays ∧
    (post_news_data (fun _ => false) mr).ok = false ∧
    controllerSendLoop mr ((title, fun _ => false) :: rest) =
      ((controllerSendLoop mr rest).1, title :: (controllerSendLoop mr rest).2) := by
  obtain ⟨k, rfl⟩ : ∃ k, mr = k + 1 := ⟨mr - 1, by omega⟩
  have hpost : post_news_data (fun _ => false) (k + 1) =
      ⟨k + 1, (List.range k).map (fun i => 2 ^ i), false⟩ := by
    have h := postLoop_false k 0
    simpa [post_news_data] using h
  refine ⟨by rw [hpost], by rw [hpost]; simp, ?_, ?_, by rw [hpost], ?_⟩
  · rw [hpost]
    exact chain_pow_lt k
  · rw [hpost]
    exact chain_pow_double k
  · simp [controllerSendLoop, hpost]

/-- C7 witness: three configured retries give three attempts and a
re-raised failure. -/
theorem claim_C7_witness :
    (post_news_data (fun _ => false) 3).attempts = 3 ∧
    (post_news_data (fun _ => false) 3).ok = false :=
  ⟨(claim_C7 3 (by norm_num) "t" []).1,
   (claim_C7 3 (by norm_num) "t" []).2.2.2.2.1⟩

/-- C8 counterexample: a thumbnail upload and a body-image upload that
fail with a request error do not null the thumbnail and do not drop
the image - upload_image catches the request error internally and
returns the original url, which the article keeps. -/
theorem claim_C8_counterexample :
    uploadPhase (some ("http://o/t.jpg", UploadOutcome.requestError))
        [("http://o/b.jpg", UploadOutcome.requestError)] =
      (some "http://o/t.jpg", ["http://o/b.jpg"]) ∧
    (uploadPhase (some ("http://o/t.jpg", UploadOutcome.requestError))
        [("http://o/b.jpg", UploadOutcome.requestError)]).1 ≠ none ∧
    (uploadPhase (some ("http://o/t.jpg", UploadOutcome.requestError))
        [("http://o/b.jpg", UploadOutcome.requestError)]).2 ≠ [] := by
  refine ⟨by decide, by decide, by decide⟩

/-- C8 amended: the article is always appended whatever the upload
outcomes; an upload failing with a request error keeps the original
url (thumbnail kept as the original, body image emitted with the
original), and only an exception escaping upload_image nulls the
thumbnail or drops that body image. -/
theorem claim_C8 (u v : String) (imgs : List (String × UploadOutcome))
    (a : PendingArticle) (acc : List ProcessedArticle) :
    (runUploadStep a acc).length = acc.length + 1 ∧
    uploadThumbnail (some (u, UploadOutcome.requestError)) = some u ∧
    uploadThumbnail (some (u, UploadOutcome.otherError)) = none ∧
    uploadThumbnail (some (u, UploadOutcome.ok v)) = some v ∧
    uploadThumbnail none = none ∧
    uploadImages imgs = imgs.filterMap (fun p =>
      match p.2 with
      | UploadOutcome.ok w => some w
      | UploadOutcome.requestError => some p.1
      | UploadOutcome.otherError => none) :=
  ⟨by simp [runUploadStep], rfl, rfl, rfl, rfl, uploadImages_eq_filterMap imgs⟩

/-- C9 counterexample: Stage A applied to its own output on the
p-A-h2-B markup differs from that output - the second application's
tree roundtrip drops the stray closing p tag the first application
left behind. -/
theorem claim_C9_counterexample :
    fix_html_paragraphs (fix_html_paragraphs toksC3) ≠ fix_html_paragraphs toksC3 := by
  decide

/-- C9 amended: the closing-tag insertion scan of Stage A is
idempotent on every token stream and from every starting flag (a
second scan inserts nothing), but full Stage A is not idempotent: its
tree roundtrip can drop a stray closing p tag left by the first
application, as on the p-A-h2-B markup where the second application
returns the first output minus its trailing closing p tag. -/
theorem claim_C9 :
    (∀ (flag : Bool) (ts : List Tok),
      insertPCloseAux flag (insertPCloseAux flag ts) = insertPCloseAux flag ts) ∧
    fix_html_paragraphs (fix_html_paragraphs toksC3) =
      [Tok.tag false "p" [], Tok.txt "A", Tok.tag true "p" [],
       Tok.tag false "h2" [], Tok.txt "B", Tok.tag true "h2" []] :=
  ⟨fun flag ts => insertPCloseAux_idem ts flag, by decide⟩

/-- C10: BaseScraper.run re-sorts the discovered links newest-first by
date string before processing: the processing order is always sorted
descending and is a permutation of the discovered links, also when the
adapter (as MihanBlockchain does) returned them sorted oldest-first. -/
theorem claim_C10 (links : List ArticleLink) :
    List.Sorted (fun a b => b.date ≤ a.date) (runProcessingOrder links) ∧
    (runProcessingOrder links).Perm links ∧
    List.Sorted (fun a b => b.date ≤ a.date)
      (runProcessingOrder (mihanDiscoveryOrder links)) ∧
    (runProcessingOrder (mihanDiscoveryOrder links)).Perm links := by
  haveI : IsTotal ArticleLink (fun a b => b.date ≤ a.date) :=
    ⟨fun a b => le_total b.date a.date⟩
  haveI : IsTrans ArticleLink (fun a b => b.date ≤ a.date) :=
    ⟨fun _ _ _ h1 h2 => le_trans h2 h1⟩
  exact ⟨List.sorted_insertionSort _ _, List.perm_insertionSort _ _,
    List.sorted_insertionSort _ _,
    (List.perm_insertionSort _ _).trans (List.perm_insertionSort _ _)⟩

end NewsScraping
